import Mathlib

/-! # myldap.c : a shallow embedding of `main`

The program is one function, `main`, a straight line of calls into the LDAP
client library.  The library and the process environment are not part of the
program; they are collected in a `World` that fixes what `getenv` and every
library call answer.  `main` is embedded as a function from a `World` to the
trace of what the program does (library operations, resources it acquires and
releases, and every `printf` / `fprintf`), together with the exit status.

Text is modelled as `List Char`, one `Char` standing for one byte.
-/

namespace MyLdap

/-! ## Text -/

/-- Bytes of a NUL-terminated C string, the terminator itself left out. -/
abbrev CString := List Char

/-- The terminating zero byte of a C string. -/
def NUL : Char := Char.ofNat 0

/-- The `%s` conversion of `printf`: the bytes found at the argument, up to
the first zero byte. -/
def printfS (memory : List Char) : List Char :=
  memory.takeWhile (fun c => c != NUL)

/-- The `%d` conversion of `printf`. -/
def printfD (i : Int) : List Char :=
  if i < 0 then '-' :: Nat.toDigits 10 i.natAbs else Nat.toDigits 10 i.natAbs

/-! ## Constants of `main` -/

/-- Value of `LDAP_SUCCESS` (and of `LDAP_OPT_SUCCESS`). -/
def LDAP_SUCCESS : Int := 0

/-- Value of `EXIT_SUCCESS`. -/
def EXIT_SUCCESS : Int := 0

/-- Value of `EXIT_FAILURE`. -/
def EXIT_FAILURE : Int := 1

/-- Line 11: `ldapUri`. -/
def ldapUri : CString := "ldap://ldap.technikum-wien.at:389".toList

/-- Line 15: `char ldapBindUser[128]`. -/
def ldapBindUserCapacity : Nat := 128

/-- Line 24: the text `sprintf` produces from the format
`uid=%s,ou=people,dc=technikum-wien,dc=at`. -/
def formatBindUser (rawLdapUser : CString) : CString :=
  "uid=".toList ++ rawLdapUser ++ ",ou=people,dc=technikum-wien,dc=at".toList

/-! ## Writing into a fixed buffer -/

/-- What stops an execution before it reaches the library. -/
inductive Fault where
  /-- A write of `written` bytes into a buffer of `capacity` bytes. -/
  | bufferOverflow (written capacity : Nat)
  deriving DecidableEq

/-- Number of bytes `sprintf` / `strcpy` store for a text: the text and its
terminator. -/
def bytesWritten (text : CString) : Nat := text.length + 1

/-- Semantics of `sprintf(buf, ...)` and `strcpy(buf, ...)` into a buffer of
`capacity` bytes: the buffer holds the text when text and terminator fit, and
the behaviour is undefined when they do not. -/
def writeBuffer (capacity : Nat) (text : CString) : Except Fault CString :=
  if bytesWritten text ≤ capacity then .ok text
  else .error (.bufferOverflow (bytesWritten text) capacity)

/-! ## The world: environment and library answers -/

/-- One attribute of an entry, as the library exposes it. -/
structure Attribute where
  /-- Attribute description returned by `ldap_first_attribute` /
  `ldap_next_attribute`. -/
  name : CString
  /-- Answer of `ldap_get_values_len`: `none` is `NULL`; otherwise the values,
  each the `bv_len` bytes of one `struct berval`. -/
  vals : Option (List (List Char))
  deriving DecidableEq

/-- One entry of a search result. -/
structure Entry where
  /-- Answer of `ldap_get_dn`. -/
  dn : CString
  /-- Whether `ldap_first_attribute` left a non-NULL `BerElement` in
  `*berptr`. -/
  ber : Bool
  /-- Attributes in the order `ldap_first_attribute` / `ldap_next_attribute`
  return them. -/
  attrs : List Attribute
  deriving DecidableEq

/-- A library return code other than `LDAP_SUCCESS`. -/
abbrev ErrorCode := {rc : Int // rc ≠ 0}

/-- Answer of `ldap_search_ext_s`: its return code and what it stored in
`*res`. -/
inductive SearchOutcome where
  /-- Return code `LDAP_SUCCESS`; `*res` holds the entries. -/
  | found (res : List Entry)
  /-- Return code `rc`, an error; `*res` is `NULL` (`none`) or holds the
  messages received before the failure, which the caller has to free like
  any other result. -/
  | failed (rc : ErrorCode) (res : Option (List Entry))
  deriving DecidableEq

/-- Return code of `ldap_search_ext_s`. -/
def SearchOutcome.rc : SearchOutcome → Int
  | .found _ => 0
  | .failed rc _ => rc.val

/-- Environment variables and library answers of one execution. -/
structure World where
  /-- Answer of `getenv("ldapuser")`. -/
  ldapuser : Option CString
  /-- Answer of `getenv("ldappw")`. -/
  ldappw : Option CString
  /-- Library function `ldap_err2string`. -/
  ldap_err2string : Int → CString
  /-- Return code of `ldap_initialize`. -/
  ldap_initialize_rc : Int
  /-- Return code of `ldap_set_option`. -/
  ldap_set_option_rc : Int
  /-- Return code of `ldap_start_tls_s`. -/
  ldap_start_tls_s_rc : Int
  /-- Return code of `ldap_sasl_bind_s`. -/
  ldap_sasl_bind_s_rc : Int
  /-- Answer of `ldap_search_ext_s`. -/
  ldap_search_ext_s : SearchOutcome

/-! ## What an execution does -/

/-- The `printf` calls of `main`, one constructor per call site. -/
inductive Out where
  /-- Line 19. -/
  | userNotFound
  /-- Line 31. -/
  | pwNotFound
  /-- Line 54. -/
  | connected
  /-- Line 167, with the value of `ldap_count_entries`. -/
  | totalResults (n : Int)
  /-- Line 179, with the value of `ldap_get_dn`. -/
  | dn (name : CString)
  /-- Line 199, with the attribute name and the bytes of `vals[i]`. -/
  | attrValue (attr : CString) (val : List Char)
  /-- Line 213. -/
  | blank
  deriving DecidableEq

/-- Text a `printf` call writes to standard output. -/
def Out.render : Out → List Char
  | .userNotFound => "(user not found... set to empty string)".toList
  | .pwNotFound => "(pw not found... set to empty string)".toList
  | .connected => "connected to LDAP server ".toList ++ ldapUri ++ "\n".toList
  | .totalResults n => "Total results: ".toList ++ printfD n ++ "\n".toList
  | .dn name => "DN: ".toList ++ name ++ "\n".toList
  | .attrValue attr val =>
      "\t".toList ++ attr ++ ": ".toList ++ printfS (val ++ [NUL]) ++ "\n".toList
  | .blank => "\n".toList

/-- The `fprintf(stderr, ...)` calls of `main`, one constructor per call
site, each with the value of `ldap_err2string(rc)` it prints. -/
inductive Err where
  /-- Line 51. -/
  | initFailed
  /-- Line 66. -/
  | setOption (text : CString)
  /-- Line 93. -/
  | startTls (text : CString)
  /-- Line 126. -/
  | bind (text : CString)
  /-- Line 162. -/
  | search (text : CString)
  deriving DecidableEq

/-- Text a `fprintf(stderr, ...)` call writes to standard error. -/
def Err.render : Err → List Char
  | .initFailed => "ldap_init failed".toList
  | .setOption text => "ldap_set_option(PROTOCOL_VERSION): ".toList ++ text ++ "\n".toList
  | .startTls text => "ldap_start_tls_s(): ".toList ++ text ++ "\n".toList
  | .bind text => "LDAP bind error: ".toList ++ text ++ "\n".toList
  | .search text => "LDAP search error: ".toList ++ text ++ "\n".toList

/-- The five protocol operations `main` invokes. -/
inductive Op where
  /-- Line 48: `ldap_initialize`. -/
  | init
  /-- Line 59: `ldap_set_option`. -/
  | setOption
  /-- Line 87: `ldap_start_tls_s`. -/
  | startTls
  /-- Line 116: `ldap_sasl_bind_s` with the name and the credentials it is
  handed. -/
  | bind (dn : CString) (cred : CString)
  /-- Line 148: `ldap_search_ext_s`. -/
  | search
  deriving DecidableEq

/-- The library-owned objects `main` is handed; entries and their attributes
are numbered in the order of iteration. -/
inductive Resource where
  /-- The `LDAP *` of `ldap_initialize`. -/
  | connection
  /-- The `LDAPMessage *` stored by `ldap_search_ext_s`. -/
  | resultSet
  /-- The string returned by `ldap_get_dn` for an entry. -/
  | dnString (entry : Nat)
  /-- The `BerElement *` stored by `ldap_first_attribute` for an entry. -/
  | cursor (entry : Nat)
  /-- The string returned by `ldap_first_attribute` / `ldap_next_attribute`. -/
  | attributeName (entry attr : Nat)
  /-- The array returned by `ldap_get_values_len`. -/
  | valueArray (entry attr : Nat)
  deriving DecidableEq

/-- One observable step of an execution. -/
inductive Event where
  /-- A protocol operation is invoked. -/
  | op (o : Op)
  /-- The library hands a resource to `main`. -/
  | acquire (r : Resource)
  /-- A resource is given back: `ldap_unbind_ext_s`, `ldap_msgfree`,
  `ber_free`, `ldap_memfree`, `ldap_value_free_len`. -/
  | release (r : Resource)
  /-- A `printf`. -/
  | stdout (o : Out)
  /-- A `fprintf(stderr, ...)`. -/
  | stderr (e : Err)
  deriving DecidableEq

/-- An execution that ran to a `return` of `main`. -/
structure Run where
  /-- Value returned by `main`. -/
  exit : Int
  /-- Everything the execution did, in order. -/
  trace : List Event
  deriving DecidableEq

/-! ## Library functions that only count -/

/-- Library function `ldap_count_entries`: the number of entries in a
result. -/
abbrev ldap_count_entries (chain : List Entry) : Int := (chain.length : Int)

/-- Library function `ldap_count_values_len`: the number of values in an
array returned by `ldap_get_values_len`. -/
abbrev ldap_count_values_len (vals : List (List Char)) : Nat := vals.length

/-! ## `main`, lines 167-214: the result printer -/

/-- Lines 197-200: `for (int i = 0; i < ldap_count_values_len(vals); i++)`
printing `vals[i]`. -/
def printValues (attr : CString) (vals : List (List Char)) : List Event :=
  (List.range (ldap_count_values_len vals)).flatMap fun i =>
    match vals[i]? with
    | some v => [Event.stdout (.attrValue attr v)]
    | none => []

/-- Lines 192-206: the loop over the attributes of entry number `e`, from
attribute number `a` on. -/
def attributeLoop (e : Nat) : Nat → List Attribute → List Event
  | _, [] => []
  | a, attr :: rest =>
      [Event.acquire (.attributeName e a)] ++
      (match attr.vals with
       | some vals =>
           [Event.acquire (.valueArray e a)] ++ printValues attr.name vals ++
           [Event.release (.valueArray e a)]
       | none => []) ++
      [Event.release (.attributeName e a)] ++
      attributeLoop e (a + 1) rest

/-- Lines 174-214: the loop over the entries, from entry number `e` on. -/
def entryLoop : Nat → List Entry → List Event
  | _, [] => []
  | e, entry :: rest =>
      [Event.acquire (.dnString e), Event.stdout (.dn entry.dn)] ++
      (if entry.ber then [Event.acquire (.cursor e)] else []) ++
      attributeLoop e 0 entry.attrs ++
      (if entry.ber then [Event.release (.cursor e)] else []) ++
      [Event.stdout .blank] ++
      entryLoop (e + 1) rest

/-! ## `main` -/

/-- Lines 48-228 of `main`: everything after the credentials are resolved.
`t` is the trace so far. -/
def session (w : World) (ldapBindUser ldapBindPassword : CString) (t : List Event) : Run :=
  -- line 48
  let t := t ++ [Event.op .init]
  if w.ldap_initialize_rc ≠ LDAP_SUCCESS then
    ⟨EXIT_FAILURE, t ++ [Event.stderr .initFailed]⟩
  else
  let t := t ++ [Event.acquire .connection, Event.stdout .connected]
  -- line 59
  let t := t ++ [Event.op .setOption]
  if w.ldap_set_option_rc ≠ LDAP_SUCCESS then
    ⟨EXIT_FAILURE, t ++ [Event.stderr (.setOption (w.ldap_err2string w.ldap_set_option_rc)),
                         Event.release .connection]⟩
  else
  -- line 87
  let t := t ++ [Event.op .startTls]
  if w.ldap_start_tls_s_rc ≠ LDAP_SUCCESS then
    ⟨EXIT_FAILURE, t ++ [Event.stderr (.startTls (w.ldap_err2string w.ldap_start_tls_s_rc)),
                         Event.release .connection]⟩
  else
  -- line 116
  let t := t ++ [Event.op (.bind ldapBindUser ldapBindPassword)]
  if w.ldap_sasl_bind_s_rc ≠ LDAP_SUCCESS then
    ⟨EXIT_FAILURE, t ++ [Event.stderr (.bind (w.ldap_err2string w.ldap_sasl_bind_s_rc)),
                         Event.release .connection]⟩
  else
  -- line 148
  let t := t ++ [Event.op .search]
  match w.ldap_search_ext_s with
  | .failed rc res =>
      let t := t ++ (if res.isSome then [Event.acquire .resultSet] else [])
      ⟨EXIT_FAILURE, t ++ [Event.stderr (.search (w.ldap_err2string rc.val)),
                           Event.release .connection]⟩
  | .found searchResult =>
      let t := t ++ [Event.acquire .resultSet]
      -- line 167
      let t := t ++ [Event.stdout (.totalResults (ldap_count_entries searchResult))]
      -- lines 174-214
      let t := t ++ entryLoop 0 searchResult
      -- lines 217, 225
      ⟨EXIT_SUCCESS, t ++ [Event.release .resultSet, Event.release .connection]⟩

/-- The program.  Lines 15-33 resolve the credentials, `session` is the
rest. -/
def main (w : World) : Except Fault Run :=
  -- lines 15-25
  let bindUser : Except Fault (CString × List Event) :=
    match w.ldapuser with
    | none =>
        (writeBuffer ldapBindUserCapacity []).map
          fun buf => (buf, [Event.stdout .userNotFound])
    | some rawLdapUser =>
        (writeBuffer ldapBindUserCapacity (formatBindUser rawLdapUser)).map
          fun buf => (buf, [])
  match bindUser with
  | .error f => .error f
  | .ok (ldapBindUser, t1) =>
      -- lines 28-33
      let (ldapBindPassword, t2) : CString × List Event :=
        match w.ldappw with
        | none => ([], [Event.stdout .pwNotFound])
        | some pw => (pw, [])
      .ok (session w ldapBindUser ldapBindPassword (t1 ++ t2))

/-! ## Observations on a run -/

/-- The `printf` calls of a trace, in order. -/
def stdoutOf (t : List Event) : List Out :=
  t.filterMap fun | .stdout o => some o | _ => none

/-- The `fprintf(stderr, ...)` calls of a trace, in order. -/
def stderrOf (t : List Event) : List Err :=
  t.filterMap fun | .stderr e => some e | _ => none

/-- The protocol operations of a trace, in order. -/
def opsOf (t : List Event) : List Op :=
  t.filterMap fun | .op o => some o | _ => none

/-- Bytes written to standard output. -/
def Run.stdoutText (r : Run) : List Char := (stdoutOf r.trace).flatMap Out.render

/-- Bytes written to standard error. -/
def Run.stderrText (r : Run) : List Char := (stderrOf r.trace).flatMap Err.render

/-! ## Vocabulary of the specification -/

/-- All five library steps answer success. -/
def AllSucceed (w : World) : Prop :=
  w.ldap_initialize_rc = LDAP_SUCCESS ∧ w.ldap_set_option_rc = LDAP_SUCCESS ∧
  w.ldap_start_tls_s_rc = LDAP_SUCCESS ∧ w.ldap_sasl_bind_s_rc = LDAP_SUCCESS ∧
  w.ldap_search_ext_s.rc = LDAP_SUCCESS

instance (w : World) : Decidable (AllSucceed w) := by
  unfold AllSucceed
  infer_instance

/-- The identity value, when present, is short enough for line 24 to stay
inside `ldapBindUser`. -/
def InBounds (w : World) : Prop :=
  match w.ldapuser with
  | none => True
  | some rawLdapUser => rawLdapUser.length ≤ 89

instance (w : World) : Decidable (InBounds w) := by
  unfold InBounds
  split <;> infer_instance

/-- Content of `ldapBindUser` after lines 15-25. -/
def bindUserOf (w : World) : CString :=
  match w.ldapuser with
  | none => []
  | some rawLdapUser => formatBindUser rawLdapUser

/-- Content of `ldapBindPassword` after lines 28-33. -/
def bindPasswordOf (w : World) : CString :=
  match w.ldappw with
  | none => []
  | some pw => pw

/-- The missing-credential notices of lines 19 and 31. -/
def noticesOf (w : World) : List Out :=
  (match w.ldapuser with | none => [Out.userNotFound] | some _ => []) ++
  (match w.ldappw with | none => [Out.pwNotFound] | some _ => [])

/-! ## The output the specification describes -/

/-- The `printf` calls for one attribute: one per value, none when the value
lookup yields nothing. -/
def attributeLines (a : Attribute) : List Out :=
  match a.vals with
  | none => []
  | some vals => vals.map (Out.attrValue a.name)

/-- The `printf` calls for one entry: the DN, the attribute lines, a blank
line. -/
def entryBlock (e : Entry) : List Out :=
  Out.dn e.dn :: e.attrs.flatMap attributeLines ++ [Out.blank]

/-- The bytes of a value that precede its first zero byte: the whole value
when it holds none. -/
def valueText (value : List Char) : List Char :=
  value.takeWhile (fun c => c != NUL)

/-- Specification text of one tab-indented `<attribute>: <value>` line, the
value written in full. -/
def specValueLine (attr : CString) (value : List Char) : List Char :=
  "\t".toList ++ attr ++ ": ".toList ++ value ++ "\n".toList

/-- Specification text of one attribute: one line per value, nothing when
the value lookup yields nothing. -/
def specAttributeText (a : Attribute) : List Char :=
  match a.vals with
  | none => []
  | some vals => vals.flatMap (specValueLine a.name)

/-- Specification text of one entry: a `DN: <dn>` line, one line per value of
each attribute, a blank line. -/
def specEntryText (e : Entry) : List Char :=
  "DN: ".toList ++ e.dn ++ "\n".toList ++ e.attrs.flatMap specAttributeText ++ "\n".toList

/-- Specification text of standard output from the count line onwards. -/
def specSearchOutput (E : List Entry) : List Char :=
  "Total results: ".toList ++ (Nat.repr E.length).toList ++ "\n".toList ++
  E.flatMap specEntryText

/-- An attribute with each of its values cut before its first zero byte. -/
def Attribute.cutAtZero (a : Attribute) : Attribute :=
  { a with vals := a.vals.map (List.map valueText) }

/-- An entry with each of its values cut before its first zero byte. -/
def Entry.cutAtZero (e : Entry) : Entry :=
  { e with attrs := e.attrs.map Attribute.cutAtZero }

/-- No value of any attribute of any entry holds a zero byte. -/
def ZeroFree (E : List Entry) : Prop :=
  ∀ e ∈ E, ∀ a ∈ e.attrs, ∀ vals, a.vals = some vals → ∀ v ∈ vals, NUL ∉ v

/-! ## The order of the protocol operations -/

/-- The fixed sequence of protocol operations, the bind carrying the name and
the secret it is handed. -/
def fixedSequence (dn cred : CString) : List Op :=
  [.init, .setOption, .startTls, .bind dn cred, .search]

/-- How many operations of the fixed sequence an execution gets to: those up
to and including the first that fails. -/
def opsReached (w : World) : Nat :=
  if w.ldap_initialize_rc ≠ 0 then 1
  else if w.ldap_set_option_rc ≠ 0 then 2
  else if w.ldap_start_tls_s_rc ≠ 0 then 3
  else if w.ldap_sasl_bind_s_rc ≠ 0 then 4
  else 5

/-! ## Diagnostics -/

/-- The five stages that can fail. -/
inductive Stage where
  | connectionInit
  | optionSet
  | tlsNegotiation
  | bind
  | search
  deriving DecidableEq

/-- The stage at which an execution fails and the library code it fails
with: the first step of the fixed sequence that does not answer success. -/
def firstFailure (w : World) : Option (Stage × Int) :=
  if w.ldap_initialize_rc ≠ 0 then some (.connectionInit, w.ldap_initialize_rc)
  else if w.ldap_set_option_rc ≠ 0 then some (.optionSet, w.ldap_set_option_rc)
  else if w.ldap_start_tls_s_rc ≠ 0 then some (.tlsNegotiation, w.ldap_start_tls_s_rc)
  else if w.ldap_sasl_bind_s_rc ≠ 0 then some (.bind, w.ldap_sasl_bind_s_rc)
  else if w.ldap_search_ext_s.rc ≠ 0 then some (.search, w.ldap_search_ext_s.rc)
  else none

/-- The `<operation>` a diagnostic line names. -/
def Stage.operation : Stage → List Char
  | .connectionInit => "ldap_init".toList
  | .optionSet => "ldap_set_option(PROTOCOL_VERSION)".toList
  | .tlsNegotiation => "ldap_start_tls_s()".toList
  | .bind => "LDAP bind error".toList
  | .search => "LDAP search error".toList

/-- Specification text of the diagnostic for a stage failing with a library
error text: `ldap_init failed` for connection-init, otherwise the line
`<operation>: <library error text>`. -/
def specDiagnostic (s : Stage) (errorText : CString) : List Char :=
  match s with
  | .connectionInit => "ldap_init failed".toList
  | s => s.operation ++ ": ".toList ++ errorText ++ "\n".toList

/-- The order of standard output as the specification lists it: connection
notice, missing-credential notices, count line, entry blocks. -/
def specStdoutOrder (w : World) (E : List Entry) : List Out :=
  [Out.connected] ++ noticesOf w ++ [Out.totalResults (E.length : Int)] ++ E.flatMap entryBlock

/-- The order of standard output as lines 19, 31, 54, 167 and 174-214 produce
it: missing-credential notices, connection notice, count line, entry
blocks. -/
def codeStdoutOrder (w : World) (E : List Entry) : List Out :=
  noticesOf w ++ [Out.connected] ++ [Out.totalResults (E.length : Int)] ++ E.flatMap entryBlock

/-- Text the result printer writes for a list of values of one attribute. -/
def printedValues (attr : CString) (vals : List (List Char)) : List Char :=
  (stdoutOf (printValues attr vals)).flatMap Out.render

/-- A value of five bytes, the third of them zero. -/
def binaryValue : List Char := ['a', 'b', NUL, 'c', 'd']

/-! ## Resource bookkeeping -/

/-- One step of the bookkeeping of live resources: an acquisition adds the
resource, a release takes it away and is only allowed on a live resource (one
acquired and not yet released); `none` marks a release that is not allowed. -/
def track (live : List Resource) : Event → Option (List Resource)
  | .acquire r => some (r :: live)
  | .release r => if r ∈ live then some (live.erase r) else none
  | _ => some live

/-- The bookkeeping over a whole trace: the resources still live at its end,
or `none` when some release was not allowed. -/
def trackAll (live : List Resource) : List Event → Option (List Resource)
  | [] => some live
  | e :: t => (track live e).bind fun live => trackAll live t

/-! ## Concrete worlds -/

/-- A stand-in for `ldap_err2string`. -/
def errorText (rc : Int) : CString :=
  if rc = 4 then "Size limit exceeded".toList
  else if rc = 49 then "Invalid credentials".toList
  else if rc = -11 then "Connect error".toList
  else "Unknown error".toList

/-- An entry with one `uid` value and one `cn` value. -/
def person (uid cn : String) : Entry where
  dn := "uid=".toList ++ uid.toList ++ ",ou=people,dc=technikum-wien,dc=at".toList
  ber := true
  attrs := [⟨"uid".toList, some [uid.toList]⟩, ⟨"cn".toList, some [cn.toList]⟩]

/-- Both variables unset, every step succeeds, the search returns two
entries. -/
def anonymousWorld : World where
  ldapuser := none
  ldappw := none
  ldap_err2string := errorText
  ldap_initialize_rc := 0
  ldap_set_option_rc := 0
  ldap_start_tls_s_rc := 0
  ldap_sasl_bind_s_rc := 0
  ldap_search_ext_s := .found [person "if19b001" "Ada", person "if19b002" "Bob"]

/-- Both variables set, every step succeeds, the search returns nothing. -/
def emptyResultWorld : World where
  ldapuser := some "if19b001".toList
  ldappw := some "secret".toList
  ldap_err2string := errorText
  ldap_initialize_rc := 0
  ldap_set_option_rc := 0
  ldap_start_tls_s_rc := 0
  ldap_sasl_bind_s_rc := 0
  ldap_search_ext_s := .found []

/-- The TLS handshake fails with `LDAP_CONNECT_ERROR`. -/
def tlsFailureWorld : World where
  ldapuser := some "if19b001".toList
  ldappw := none
  ldap_err2string := errorText
  ldap_initialize_rc := 0
  ldap_set_option_rc := 0
  ldap_start_tls_s_rc := -11
  ldap_sasl_bind_s_rc := 0
  ldap_search_ext_s := .found []

/-- The bind is refused with `LDAP_INVALID_CREDENTIALS`. -/
def bindFailureWorld : World where
  ldapuser := none
  ldappw := some "secret".toList
  ldap_err2string := errorText
  ldap_initialize_rc := 0
  ldap_set_option_rc := 0
  ldap_start_tls_s_rc := 0
  ldap_sasl_bind_s_rc := 49
  ldap_search_ext_s := .found []

/-- The execution of `main` in `bindFailureWorld`. -/
def bindFailureRun : Run where
  exit := 1
  trace := [Event.stdout .userNotFound, Event.op .init, Event.acquire .connection,
    Event.stdout .connected, Event.op .setOption, Event.op .startTls,
    Event.op (.bind [] "secret".toList),
    Event.stderr (.bind "Invalid credentials".toList), Event.release .connection]

/-- An entry whose `cn` value is the four bytes `J o 0 e`. -/
def zeroByteEntry : Entry where
  dn := "cn=Jo".toList
  ber := true
  attrs := [⟨"cn".toList, some [['J', 'o', NUL, 'e']]⟩]

/-- Both variables set, every step succeeds, the search returns
`zeroByteEntry`. -/
def zeroByteWorld : World where
  ldapuser := some "if19b001".toList
  ldappw := some "secret".toList
  ldap_err2string := errorText
  ldap_initialize_rc := 0
  ldap_set_option_rc := 0
  ldap_start_tls_s_rc := 0
  ldap_sasl_bind_s_rc := 0
  ldap_search_ext_s := .found [zeroByteEntry]

/-- The execution of `main` in `zeroByteWorld`. -/
def zeroByteRun : Run where
  exit := 0
  trace := [Event.op .init, Event.acquire .connection, Event.stdout .connected,
    Event.op .setOption, Event.op .startTls,
    Event.op (.bind "uid=if19b001,ou=people,dc=technikum-wien,dc=at".toList "secret".toList),
    Event.op .search, Event.acquire .resultSet, Event.stdout (.totalResults 1),
    Event.acquire (.dnString 0), Event.stdout (.dn "cn=Jo".toList),
    Event.acquire (.cursor 0),
    Event.acquire (.attributeName 0 0), Event.acquire (.valueArray 0 0),
    Event.stdout (.attrValue "cn".toList ['J', 'o', NUL, 'e']),
    Event.release (.valueArray 0 0), Event.release (.attributeName 0 0),
    Event.release (.cursor 0), Event.stdout .blank,
    Event.release .resultSet, Event.release .connection]

/-- The execution of `main` in `sizeLimitWorld`. -/
def sizeLimitRun : Run where
  exit := 1
  trace := [Event.stdout .userNotFound, Event.stdout .pwNotFound,
    Event.op .init, Event.acquire .connection, Event.stdout .connected,
    Event.op .setOption, Event.op .startTls, Event.op (.bind [] []),
    Event.op .search, Event.acquire .resultSet,
    Event.stderr (.search "Size limit exceeded".toList), Event.release .connection]

/-- The execution of `main` in `anonymousWorld`. -/
def anonymousRun : Run where
  exit := 0
  trace := [Event.stdout .userNotFound, Event.stdout .pwNotFound,
    Event.op .init, Event.acquire .connection, Event.stdout .connected,
    Event.op .setOption, Event.op .startTls, Event.op (.bind [] []),
    Event.op .search, Event.acquire .resultSet, Event.stdout (.totalResults 2),
    Event.acquire (.dnString 0),
    Event.stdout (.dn "uid=if19b001,ou=people,dc=technikum-wien,dc=at".toList),
    Event.acquire (.cursor 0),
    Event.acquire (.attributeName 0 0), Event.acquire (.valueArray 0 0),
    Event.stdout (.attrValue "uid".toList "if19b001".toList),
    Event.release (.valueArray 0 0), Event.release (.attributeName 0 0),
    Event.acquire (.attributeName 0 1), Event.acquire (.valueArray 0 1),
    Event.stdout (.attrValue "cn".toList "Ada".toList),
    Event.release (.valueArray 0 1), Event.release (.attributeName 0 1),
    Event.release (.cursor 0), Event.stdout .blank,
    Event.acquire (.dnString 1),
    Event.stdout (.dn "uid=if19b002,ou=people,dc=technikum-wien,dc=at".toList),
    Event.acquire (.cursor 1),
    Event.acquire (.attributeName 1 0), Event.acquire (.valueArray 1 0),
    Event.stdout (.attrValue "uid".toList "if19b002".toList),
    Event.release (.valueArray 1 0), Event.release (.attributeName 1 0),
    Event.acquire (.attributeName 1 1), Event.acquire (.valueArray 1 1),
    Event.stdout (.attrValue "cn".toList "Bob".toList),
    Event.release (.valueArray 1 1), Event.release (.attributeName 1 1),
    Event.release (.cursor 1), Event.stdout .blank,
    Event.release .resultSet, Event.release .connection]

/-- The execution of `main` in `emptyResultWorld`. -/
def emptyResultRun : Run where
  exit := 0
  trace := [Event.op .init, Event.acquire .connection, Event.stdout .connected,
    Event.op .setOption, Event.op .startTls,
    Event.op (.bind "uid=if19b001,ou=people,dc=technikum-wien,dc=at".toList "secret".toList),
    Event.op .search, Event.acquire .resultSet, Event.stdout (.totalResults 0),
    Event.release .resultSet, Event.release .connection]

/-- Identity unset, secret set, every step succeeds, the search returns
nothing. -/
def noUserWorld : World where
  ldapuser := none
  ldappw := some "secret".toList
  ldap_err2string := errorText
  ldap_initialize_rc := 0
  ldap_set_option_rc := 0
  ldap_start_tls_s_rc := 0
  ldap_sasl_bind_s_rc := 0
  ldap_search_ext_s := .found []

/-- The execution of `main` in `noUserWorld`. -/
def noUserRun : Run where
  exit := 0
  trace := [Event.stdout .userNotFound, Event.op .init, Event.acquire .connection,
    Event.stdout .connected, Event.op .setOption, Event.op .startTls,
    Event.op (.bind [] "secret".toList),
    Event.op .search, Event.acquire .resultSet, Event.stdout (.totalResults 0),
    Event.release .resultSet, Event.release .connection]

/-- The execution of `main` in `tlsFailureWorld`. -/
def tlsFailureRun : Run where
  exit := 1
  trace := [Event.stdout .pwNotFound, Event.op .init, Event.acquire .connection,
    Event.stdout .connected, Event.op .setOption, Event.op .startTls,
    Event.stderr (.startTls "Connect error".toList), Event.release .connection]

/-- An identity value of 90 bytes. -/
def longUserWorld : World where
  ldapuser := some (List.replicate 90 'a')
  ldappw := none
  ldap_err2string := errorText
  ldap_initialize_rc := 0
  ldap_set_option_rc := 0
  ldap_start_tls_s_rc := 0
  ldap_sasl_bind_s_rc := 0
  ldap_search_ext_s := .found []

/-- The search ends with `LDAP_SIZELIMIT_EXCEEDED` and hands over the
entries received up to the limit. -/
def sizeLimitWorld : World where
  ldapuser := none
  ldappw := none
  ldap_err2string := errorText
  ldap_initialize_rc := 0
  ldap_set_option_rc := 0
  ldap_start_tls_s_rc := 0
  ldap_sasl_bind_s_rc := 0
  ldap_search_ext_s := .failed ⟨4, by decide⟩ (some [person "if19b001" "Ada"])

end MyLdap

/-! # Theorems -/

namespace MyLdap

/-! ## Unfolding `main` -/

theorem bytesWritten_formatBindUser (U : CString) :
    bytesWritten (formatBindUser U) = 38 + U.length + 1 := by
  simp [bytesWritten, formatBindUser]
  omega

theorem writeBuffer_ok_iff (capacity : Nat) (text buf : CString) :
    writeBuffer capacity text = .ok buf ↔ bytesWritten text ≤ capacity ∧ buf = text := by
  unfold writeBuffer
  split
  · constructor
    · intro h
      cases h
      exact ⟨by assumption, rfl⟩
    · rintro ⟨_, rfl⟩
      rfl
  · constructor
    · intro h
      cases h
    · rintro ⟨h, _⟩
      contradiction

/-- Executions of `main` that reach a `return` are those in which line 24
stays inside the buffer; they continue with `session`. -/
theorem main_ok_iff (w : World) (r : Run) :
    main w = .ok r ↔
      InBounds w ∧
      r = session w (bindUserOf w) (bindPasswordOf w) ((noticesOf w).map Event.stdout) := by
  obtain ⟨user, pw, e2s, i1, i2, i3, i4, so⟩ := w
  cases user with
  | none =>
    cases pw <;>
      simp [main, InBounds, bindUserOf, bindPasswordOf, noticesOf, writeBuffer, bytesWritten,
        ldapBindUserCapacity, Except.map, eq_comm]
  | some U =>
    have hlen := bytesWritten_formatBindUser U
    by_cases hU : U.length ≤ 89
    · have hfit : bytesWritten (formatBindUser U) ≤ 128 := by omega
      cases pw <;>
        simp [main, InBounds, bindUserOf, bindPasswordOf, noticesOf, writeBuffer, hfit, hU,
          ldapBindUserCapacity, Except.map, eq_comm]
    · have hfit : ¬ bytesWritten (formatBindUser U) ≤ 128 := by omega
      cases pw <;>
        simp [main, InBounds, bindUserOf, bindPasswordOf, noticesOf, writeBuffer, hfit, hU,
          ldapBindUserCapacity, Except.map]

/-- The six ways through lines 48-228, each with the trace it leaves. -/
theorem session_cases (w : World) (dn pw : CString) (t : List Event) :
    (w.ldap_initialize_rc ≠ 0 ∧
      session w dn pw t = ⟨1, t ++ [Event.op .init, Event.stderr .initFailed]⟩) ∨
    (w.ldap_initialize_rc = 0 ∧ w.ldap_set_option_rc ≠ 0 ∧
      session w dn pw t =
        ⟨1, t ++ [Event.op .init, Event.acquire .connection, Event.stdout .connected,
                  Event.op .setOption,
                  Event.stderr (.setOption (w.ldap_err2string w.ldap_set_option_rc)),
                  Event.release .connection]⟩) ∨
    (w.ldap_initialize_rc = 0 ∧ w.ldap_set_option_rc = 0 ∧ w.ldap_start_tls_s_rc ≠ 0 ∧
      session w dn pw t =
        ⟨1, t ++ [Event.op .init, Event.acquire .connection, Event.stdout .connected,
                  Event.op .setOption, Event.op .startTls,
                  Event.stderr (.startTls (w.ldap_err2string w.ldap_start_tls_s_rc)),
                  Event.release .connection]⟩) ∨
    (w.ldap_initialize_rc = 0 ∧ w.ldap_set_option_rc = 0 ∧ w.ldap_start_tls_s_rc = 0 ∧
      w.ldap_sasl_bind_s_rc ≠ 0 ∧
      session w dn pw t =
        ⟨1, t ++ [Event.op .init, Event.acquire .connection, Event.stdout .connected,
                  Event.op .setOption, Event.op .startTls, Event.op (.bind dn pw),
                  Event.stderr (.bind (w.ldap_err2string w.ldap_sasl_bind_s_rc)),
                  Event.release .connection]⟩) ∨
    (w.ldap_initialize_rc = 0 ∧ w.ldap_set_option_rc = 0 ∧ w.ldap_start_tls_s_rc = 0 ∧
      w.ldap_sasl_bind_s_rc = 0 ∧
      ∃ rc res, w.ldap_search_ext_s = .failed rc res ∧
      session w dn pw t =
        ⟨1, t ++ [Event.op .init, Event.acquire .connection, Event.stdout .connected,
                  Event.op .setOption, Event.op .startTls, Event.op (.bind dn pw),
                  Event.op .search] ++
                 (if res.isSome then [Event.acquire .resultSet] else []) ++
                 [Event.stderr (.search (w.ldap_err2string rc.val)),
                  Event.release .connection]⟩) ∨
    (w.ldap_initialize_rc = 0 ∧ w.ldap_set_option_rc = 0 ∧ w.ldap_start_tls_s_rc = 0 ∧
      w.ldap_sasl_bind_s_rc = 0 ∧
      ∃ E, w.ldap_search_ext_s = .found E ∧
      session w dn pw t =
        ⟨0, t ++ [Event.op .init, Event.acquire .connection, Event.stdout .connected,
                  Event.op .setOption, Event.op .startTls, Event.op (.bind dn pw),
                  Event.op .search, Event.acquire .resultSet,
                  Event.stdout (.totalResults (E.length : Int))] ++
                 entryLoop 0 E ++
                 [Event.release .resultSet, Event.release .connection]⟩) := by
  by_cases h1 : w.ldap_initialize_rc = 0
  · right
    by_cases h2 : w.ldap_set_option_rc = 0
    · right
      by_cases h3 : w.ldap_start_tls_s_rc = 0
      · right
        by_cases h4 : w.ldap_sasl_bind_s_rc = 0
        · right
          cases h5 : w.ldap_search_ext_s with
          | failed rc res =>
            left
            refine ⟨h1, h2, h3, h4, rc, res, rfl, ?_⟩
            simp [session, h1, h2, h3, h4, h5, LDAP_SUCCESS, EXIT_FAILURE]
          | found E =>
            right
            refine ⟨h1, h2, h3, h4, E, rfl, ?_⟩
            simp [session, h1, h2, h3, h4, h5, LDAP_SUCCESS, EXIT_SUCCESS]
        · left
          refine ⟨h1, h2, h3, h4, ?_⟩
          simp [session, h1, h2, h3, h4, LDAP_SUCCESS, EXIT_FAILURE]
      · left
        refine ⟨h1, h2, h3, ?_⟩
        simp [session, h1, h2, h3, LDAP_SUCCESS, EXIT_FAILURE]
    · left
      refine ⟨h1, h2, ?_⟩
      simp [session, h1, h2, LDAP_SUCCESS, EXIT_FAILURE]
  · left
    refine ⟨h1, ?_⟩
    simp [session, h1, LDAP_SUCCESS, EXIT_FAILURE]

/-! ## Exit status -/

/-- Exit status of lines 48-228, whatever name, secret and earlier trace they
start from. -/
theorem session_exit (w : World) (dn pw : CString) (t : List Event) :
    (session w dn pw t).exit = if AllSucceed w then 0 else 1 := by
  rcases session_cases w dn pw t
    with ⟨h1, e⟩ | ⟨h1, h2, e⟩ | ⟨h1, h2, h3, e⟩ | ⟨h1, h2, h3, h4, e⟩ |
      ⟨h1, h2, h3, h4, rc, res, h5, e⟩ | ⟨h1, h2, h3, h4, E, h5, e⟩
  · rw [e]; simp [AllSucceed, LDAP_SUCCESS, h1]
  · rw [e]; simp [AllSucceed, LDAP_SUCCESS, h1, h2]
  · rw [e]; simp [AllSucceed, LDAP_SUCCESS, h1, h2, h3]
  · rw [e]; simp [AllSucceed, LDAP_SUCCESS, h1, h2, h3, h4]
  · rw [e]; simp [AllSucceed, LDAP_SUCCESS, h1, h2, h3, h4, h5, SearchOutcome.rc, rc.property]
  · rw [e]; simp [AllSucceed, LDAP_SUCCESS, h1, h2, h3, h4, h5, SearchOutcome.rc]

/-- The exit status of a returning execution, by cases on the library
answers. -/
theorem main_exit (w : World) (r : Run) (h : main w = .ok r) :
    r.exit = if AllSucceed w then 0 else 1 := by
  obtain ⟨-, rfl⟩ := (main_ok_iff w r).1 h
  exact session_exit w _ _ _

/-- C1: for every combination of answers of the five library steps, the exit
status is 0 if and only if all five succeed, and it is `EXIT_FAILURE`, hence
non-zero, as soon as one of them fails, whatever the search would have
answered.  This holds for lines 48-228 started from any bind name and secret
the environment can give, and so for every execution that returns from
`main`. -/
theorem exit_status_zero_iff_all_succeed (w : World) :
    (∀ dn pw t, (session w dn pw t).exit = 0 ↔ AllSucceed w) ∧
    (∀ r, main w = .ok r →
      (r.exit = 0 ↔ AllSucceed w) ∧ (¬ AllSucceed w → r.exit = EXIT_FAILURE ∧ r.exit ≠ 0)) := by
  constructor
  · intro dn pw t
    rw [session_exit]
    by_cases hall : AllSucceed w <;> simp [hall]
  · intro r h
    rw [main_exit w r h]
    by_cases hall : AllSucceed w <;> simp [hall, EXIT_FAILURE]

/-- C1 at a world where the bind is refused: the exit status is 1. -/
theorem exit_status_zero_iff_all_succeed_witness :
    main bindFailureWorld = .ok bindFailureRun ∧ ¬ AllSucceed bindFailureWorld ∧
    bindFailureRun.exit = EXIT_FAILURE ∧ bindFailureRun.exit ≠ 0 :=
  ⟨rfl, by decide,
    ((exit_status_zero_iff_all_succeed bindFailureWorld).2 bindFailureRun rfl).2 (by decide)⟩

/-! ## The bind-name buffer -/

/-- C10: `ldapBindUser` holds 128 bytes; formatting an identity value `U`
stores 38 + |U| + 1 bytes; the write stays inside the buffer if and only if
|U| ≤ 89, and from 90 bytes on it runs past the end. -/
theorem bind_user_write_in_bounds_iff (U : CString) :
    ldapBindUserCapacity = 128 ∧
    bytesWritten (formatBindUser U) = 38 + U.length + 1 ∧
    (bytesWritten (formatBindUser U) ≤ ldapBindUserCapacity ↔ U.length ≤ 89) ∧
    (ldapBindUserCapacity < bytesWritten (formatBindUser U) ↔ 90 ≤ U.length) ∧
    writeBuffer ldapBindUserCapacity (formatBindUser U) =
      if U.length ≤ 89 then .ok (formatBindUser U)
      else .error (.bufferOverflow (38 + U.length + 1) 128) := by
  have hlen := bytesWritten_formatBindUser U
  refine ⟨rfl, hlen, ?_, ?_, ?_⟩
  · rw [hlen, ldapBindUserCapacity]
    omega
  · rw [hlen, ldapBindUserCapacity]
    omega
  · unfold writeBuffer
    rw [hlen, ldapBindUserCapacity]
    by_cases hU : U.length ≤ 89
    · have : 38 + U.length + 1 ≤ 128 := by omega
      simp [hU, this]
    · have : ¬ 38 + U.length + 1 ≤ 128 := by omega
      simp [hU, this]

/-- `main` reaches a `return` exactly in the worlds whose identity value is
absent or at most 89 bytes long. -/
theorem main_defined_iff (w : World) : (∃ r, main w = .ok r) ↔ InBounds w := by
  constructor
  · rintro ⟨r, h⟩
    exact ((main_ok_iff w r).1 h).1
  · intro h
    exact ⟨_, (main_ok_iff w _).2 ⟨h, rfl⟩⟩

/-- C4, at an identity value of 90 bytes: line 24 stores 129 bytes in the
128-byte buffer, so no name is defined for the bind. -/
theorem long_identity_overflows :
    longUserWorld.ldapuser = some (List.replicate 90 'a') ∧
    main longUserWorld = .error (.bufferOverflow 129 128) := by
  refine ⟨rfl, ?_⟩
  simp [main, longUserWorld, writeBuffer, bytesWritten, formatBindUser, ldapBindUserCapacity,
    Except.map]

/-! ## Observations on traces -/

@[simp] theorem stdoutOf_nil : stdoutOf [] = [] := rfl
@[simp] theorem stderrOf_nil : stderrOf [] = [] := rfl
@[simp] theorem opsOf_nil : opsOf [] = [] := rfl

@[simp] theorem stdoutOf_append (s t : List Event) :
    stdoutOf (s ++ t) = stdoutOf s ++ stdoutOf t := by
  simp [stdoutOf]

@[simp] theorem stderrOf_append (s t : List Event) :
    stderrOf (s ++ t) = stderrOf s ++ stderrOf t := by
  simp [stderrOf]

@[simp] theorem opsOf_append (s t : List Event) :
    opsOf (s ++ t) = opsOf s ++ opsOf t := by
  simp [opsOf]

@[simp] theorem stdoutOf_cons (e : Event) (t : List Event) :
    stdoutOf (e :: t) = (match e with | .stdout o => [o] | _ => []) ++ stdoutOf t := by
  cases e <;> simp [stdoutOf, List.filterMap_cons]

@[simp] theorem stderrOf_cons (e : Event) (t : List Event) :
    stderrOf (e :: t) = (match e with | .stderr o => [o] | _ => []) ++ stderrOf t := by
  cases e <;> simp [stderrOf, List.filterMap_cons]

@[simp] theorem opsOf_cons (e : Event) (t : List Event) :
    opsOf (e :: t) = (match e with | .op o => [o] | _ => []) ++ opsOf t := by
  cases e <;> simp [opsOf, List.filterMap_cons]

@[simp] theorem stdoutOf_map_stdout (l : List Out) : stdoutOf (l.map Event.stdout) = l := by
  induction l with
  | nil => rfl
  | cons o l ih => simp [ih]

@[simp] theorem stderrOf_map_stdout (l : List Out) : stderrOf (l.map Event.stdout) = [] := by
  induction l with
  | nil => rfl
  | cons o l ih => simp [ih]

@[simp] theorem opsOf_map_stdout (l : List Out) : opsOf (l.map Event.stdout) = [] := by
  induction l with
  | nil => rfl
  | cons o l ih => simp [ih]

/-- An index loop over `0 .. length - 1` visits the elements in order. -/
theorem range_flatMap_getElem {α β : Type} (l : List α) (f : α → List β)
    (g : Nat → List β) (hg : ∀ i, g i = (l[i]?).elim [] f) :
    (List.range l.length).flatMap g = l.flatMap f := by
  induction l generalizing g with
  | nil => rfl
  | cons x l ih =>
    rw [List.length_cons, List.range_succ_eq_map, List.flatMap_cons, List.flatMap_map,
      List.flatMap_cons]
    have h0 : g 0 = f x := by simpa using hg 0
    rw [h0]
    congr 1
    apply ih
    intro i
    simpa using hg (i + 1)

theorem printValues_eq (attr : CString) (vals : List (List Char)) :
    printValues attr vals = vals.map fun v => Event.stdout (.attrValue attr v) := by
  unfold printValues
  rw [range_flatMap_getElem vals (fun v => [Event.stdout (.attrValue attr v)])]
  · induction vals with
    | nil => rfl
    | cons v vals ih => simp [List.flatMap_cons, ih]
  · intro i
    cases vals[i]? <;> rfl

@[simp] theorem stdoutOf_printValues (attr : CString) (vals : List (List Char)) :
    stdoutOf (printValues attr vals) = vals.map (Out.attrValue attr) := by
  rw [printValues_eq]
  induction vals with
  | nil => rfl
  | cons v vals ih => simp [ih]

@[simp] theorem stderrOf_printValues (attr : CString) (vals : List (List Char)) :
    stderrOf (printValues attr vals) = [] := by
  rw [printValues_eq]
  induction vals with
  | nil => rfl
  | cons v vals ih => simp [ih]

@[simp] theorem opsOf_printValues (attr : CString) (vals : List (List Char)) :
    opsOf (printValues attr vals) = [] := by
  rw [printValues_eq]
  induction vals with
  | nil => rfl
  | cons v vals ih => simp [ih]

@[simp] theorem stdoutOf_attributeLoop (e a : Nat) (attrs : List Attribute) :
    stdoutOf (attributeLoop e a attrs) = attrs.flatMap attributeLines := by
  induction attrs generalizing a with
  | nil => rfl
  | cons attr rest ih =>
    cases hv : attr.vals <;> simp [attributeLoop, attributeLines, hv, ih, List.flatMap_cons]

@[simp] theorem stderrOf_attributeLoop (e a : Nat) (attrs : List Attribute) :
    stderrOf (attributeLoop e a attrs) = [] := by
  induction attrs generalizing a with
  | nil => rfl
  | cons attr rest ih =>
    cases hv : attr.vals <;> simp [attributeLoop, hv, ih]

@[simp] theorem opsOf_attributeLoop (e a : Nat) (attrs : List Attribute) :
    opsOf (attributeLoop e a attrs) = [] := by
  induction attrs generalizing a with
  | nil => rfl
  | cons attr rest ih =>
    cases hv : attr.vals <;> simp [attributeLoop, hv, ih]

@[simp] theorem stdoutOf_entryLoop (e : Nat) (E : List Entry) :
    stdoutOf (entryLoop e E) = E.flatMap entryBlock := by
  induction E generalizing e with
  | nil => rfl
  | cons entry rest ih =>
    cases hb : entry.ber <;> simp [entryLoop, entryBlock, hb, ih, List.flatMap_cons]

@[simp] theorem stderrOf_entryLoop (e : Nat) (E : List Entry) :
    stderrOf (entryLoop e E) = [] := by
  induction E generalizing e with
  | nil => rfl
  | cons entry rest ih =>
    cases hb : entry.ber <;> simp [entryLoop, hb, ih]

@[simp] theorem opsOf_entryLoop (e : Nat) (E : List Entry) :
    opsOf (entryLoop e E) = [] := by
  induction E generalizing e with
  | nil => rfl
  | cons entry rest ih =>
    cases hb : entry.ber <;> simp [entryLoop, hb, ih]

theorem mem_noticesOf (w : World) (o : Out) (h : o ∈ noticesOf w) :
    o = .userNotFound ∨ o = .pwNotFound := by
  unfold noticesOf at h
  rcases List.mem_append.1 h with h | h
  · split at h <;> simp_all
  · split at h <;> simp_all

/-! ## Order of the protocol operations -/

/-- The operations a returning execution invokes, and when it prints the
count line. -/
theorem main_ops (w : World) (r : Run) (h : main w = .ok r) :
    opsOf r.trace = (fixedSequence (bindUserOf w) (bindPasswordOf w)).take (opsReached w) ∧
    (∀ n, Out.totalResults n ∈ stdoutOf r.trace → AllSucceed w) := by
  obtain ⟨-, rfl⟩ := (main_ok_iff w r).1 h
  have hn : ∀ n, Out.totalResults n ∉ noticesOf w := fun n hmem => by
    rcases mem_noticesOf w _ hmem with h | h <;> cases h
  rcases session_cases w (bindUserOf w) (bindPasswordOf w) ((noticesOf w).map Event.stdout)
    with ⟨h1, e⟩ | ⟨h1, h2, e⟩ | ⟨h1, h2, h3, e⟩ | ⟨h1, h2, h3, h4, e⟩ |
      ⟨h1, h2, h3, h4, rc, res, h5, e⟩ | ⟨h1, h2, h3, h4, E, h5, e⟩
  · rw [e]; simp [fixedSequence, opsReached, h1, hn]
  · rw [e]; simp [fixedSequence, opsReached, h1, h2, hn]
  · rw [e]; simp [fixedSequence, opsReached, h1, h2, h3, hn]
  · rw [e]; simp [fixedSequence, opsReached, h1, h2, h3, h4, hn]
  · rw [e]
    cases res <;> simp [fixedSequence, opsReached, h1, h2, h3, h4, hn]
  · rw [e]
    have hall : AllSucceed w := by
      simp [AllSucceed, LDAP_SUCCESS, h1, h2, h3, h4, h5, SearchOutcome.rc]
    simp [fixedSequence, opsReached, h1, h2, h3, h4, hall]

/-- C9: in every execution that returns from `main`, the protocol operations
invoked are the first `opsReached w` of the fixed sequence open-connection,
set-protocol-version, STARTTLS, bind, search, hence a prefix of it with no
operation twice; an operation is invoked only if every earlier one
succeeded; and a `Total results` line is printed only if the search (and all
before it) succeeded. -/
theorem operations_follow_fixed_sequence (w : World) (r : Run) (h : main w = .ok r) :
    opsOf r.trace = (fixedSequence (bindUserOf w) (bindPasswordOf w)).take (opsReached w) ∧
    opsOf r.trace <+: fixedSequence (bindUserOf w) (bindPasswordOf w) ∧
    (opsOf r.trace).Nodup ∧
    (Op.setOption ∈ opsOf r.trace → w.ldap_initialize_rc = 0) ∧
    (Op.startTls ∈ opsOf r.trace → w.ldap_initialize_rc = 0 ∧ w.ldap_set_option_rc = 0) ∧
    (∀ dn cred, Op.bind dn cred ∈ opsOf r.trace →
      w.ldap_initialize_rc = 0 ∧ w.ldap_set_option_rc = 0 ∧ w.ldap_start_tls_s_rc = 0) ∧
    (Op.search ∈ opsOf r.trace →
      w.ldap_initialize_rc = 0 ∧ w.ldap_set_option_rc = 0 ∧ w.ldap_start_tls_s_rc = 0 ∧
      w.ldap_sasl_bind_s_rc = 0) ∧
    (∀ n, Out.totalResults n ∈ stdoutOf r.trace → AllSucceed w) := by
  obtain ⟨hops, htotal⟩ := main_ops w r h
  have hnodup : (fixedSequence (bindUserOf w) (bindPasswordOf w)).Nodup := by
    simp [fixedSequence]
  refine ⟨hops, ?_, ?_, ?_, ?_, ?_, ?_, htotal⟩
  · rw [hops]; exact List.take_prefix _ _
  · rw [hops]; exact hnodup.sublist (List.take_sublist _ _)
  · rw [hops]
    unfold opsReached fixedSequence
    split
    · simp
    · intro _; simp_all
  · rw [hops]
    unfold opsReached fixedSequence
    split
    · simp
    · split
      · simp
      · intro _; simp_all
  · intro dn cred
    rw [hops]
    unfold opsReached fixedSequence
    split
    · simp
    · split
      · simp
      · split
        · simp
        · intro _; simp_all
  · rw [hops]
    unfold opsReached fixedSequence
    split
    · simp
    · split
      · simp
      · split
        · simp
        · split
          · simp
          · intro _; simp_all

/-- C9 at a world where the TLS handshake fails: the operations stop after
STARTTLS, so neither bind nor search is invoked. -/
theorem operations_follow_fixed_sequence_witness :
    main tlsFailureWorld = .ok tlsFailureRun ∧
    opsOf tlsFailureRun.trace = [Op.init, Op.setOption, Op.startTls] ∧
    opsOf tlsFailureRun.trace =
      (fixedSequence (bindUserOf tlsFailureWorld) (bindPasswordOf tlsFailureWorld)).take
        (opsReached tlsFailureWorld) :=
  ⟨rfl, rfl, (operations_follow_fixed_sequence tlsFailureWorld tlsFailureRun rfl).1⟩

/-! ## Standard error -/

theorem firstFailure_eq_none_iff (w : World) : firstFailure w = none ↔ AllSucceed w := by
  unfold firstFailure AllSucceed LDAP_SUCCESS
  constructor
  · intro h
    repeat' split at h
    all_goals simp_all
  · rintro ⟨h1, h2, h3, h4, h5⟩
    simp [h1, h2, h3, h4, h5]

/-- C2: in every execution that returns from `main`, when a stage fails with
library code rc, exactly one diagnostic is written to standard error and its
text is `ldap_init failed` for connection-init and otherwise
`<operation>: <library error text of rc>` and a newline (`ldap_start_tls_s()`
being the operation named for a TLS failure); the operation names of
different stages differ; when every step succeeds nothing is written. -/
theorem stderr_is_one_diagnostic (w : World) (r : Run) (h : main w = .ok r) :
    (∀ s rc, firstFailure w = some (s, rc) →
      (stderrOf r.trace).length = 1 ∧
      r.stderrText = specDiagnostic s (w.ldap_err2string rc)) ∧
    (AllSucceed w → stderrOf r.trace = [] ∧ r.stderrText = []) ∧
    (∀ text, specDiagnostic .tlsNegotiation text =
      "ldap_start_tls_s(): ".toList ++ text ++ "\n".toList) ∧
    Function.Injective Stage.operation := by
  obtain ⟨-, rfl⟩ := (main_ok_iff w r).1 h
  refine ⟨?_, ?_, ?_, ?_⟩
  · intro s rc hs
    unfold Run.stderrText
    rcases session_cases w (bindUserOf w) (bindPasswordOf w) ((noticesOf w).map Event.stdout)
      with ⟨h1, e⟩ | ⟨h1, h2, e⟩ | ⟨h1, h2, h3, e⟩ | ⟨h1, h2, h3, h4, e⟩ |
        ⟨h1, h2, h3, h4, rc5, res, h5, e⟩ | ⟨h1, h2, h3, h4, E, h5, e⟩
    · rw [e]
      simp only [firstFailure, h1, ne_eq, not_false_eq_true, if_true, Option.some.injEq,
        Prod.mk.injEq] at hs
      obtain ⟨rfl, rfl⟩ := hs
      simp [specDiagnostic, Err.render]
    · rw [e]
      simp only [firstFailure, h1, h2, ne_eq, not_true_eq_false, not_false_eq_true, if_true,
        if_false, Option.some.injEq, Prod.mk.injEq] at hs
      obtain ⟨rfl, rfl⟩ := hs
      simp [specDiagnostic, Err.render, Stage.operation]
    · rw [e]
      simp only [firstFailure, h1, h2, h3, ne_eq, not_true_eq_false, not_false_eq_true, if_true,
        if_false, Option.some.injEq, Prod.mk.injEq] at hs
      obtain ⟨rfl, rfl⟩ := hs
      simp [specDiagnostic, Err.render, Stage.operation]
    · rw [e]
      simp only [firstFailure, h1, h2, h3, h4, ne_eq, not_true_eq_false, not_false_eq_true,
        if_true, if_false, Option.some.injEq, Prod.mk.injEq] at hs
      obtain ⟨rfl, rfl⟩ := hs
      simp [specDiagnostic, Err.render, Stage.operation]
    · rw [e]
      have hrc : w.ldap_search_ext_s.rc = rc5.val := by rw [h5]; rfl
      have hne : rc5.val ≠ 0 := rc5.property
      simp only [firstFailure, h1, h2, h3, h4, hrc, hne, ne_eq, not_true_eq_false,
        not_false_eq_true, if_true, if_false, Option.some.injEq, Prod.mk.injEq] at hs
      obtain ⟨rfl, rfl⟩ := hs
      cases res <;> simp [specDiagnostic, Err.render, Stage.operation]
    · have hall : AllSucceed w := by
        simp [AllSucceed, LDAP_SUCCESS, h1, h2, h3, h4, h5, SearchOutcome.rc]
      rw [(firstFailure_eq_none_iff w).2 hall] at hs
      cases hs
  · intro hall
    obtain ⟨h1, h2, h3, h4, h5⟩ := hall
    unfold Run.stderrText
    rcases session_cases w (bindUserOf w) (bindPasswordOf w) ((noticesOf w).map Event.stdout)
      with ⟨g1, e⟩ | ⟨g1, g2, e⟩ | ⟨g1, g2, g3, e⟩ | ⟨g1, g2, g3, g4, e⟩ |
        ⟨g1, g2, g3, g4, rc5, res, g5, e⟩ | ⟨g1, g2, g3, g4, E, g5, e⟩
    · exact absurd h1 g1
    · exact absurd h2 g2
    · exact absurd h3 g3
    · exact absurd h4 g4
    · rw [g5] at h5
      exact absurd h5 rc5.property
    · rw [e]
      simp
  · intro text
    simp [specDiagnostic, Stage.operation]
  · intro a b hab
    cases a <;> cases b <;> first | rfl | (exfalso; revert hab; decide)

/-- C2 at a world where the TLS handshake fails with `LDAP_CONNECT_ERROR`:
standard error holds the one line `ldap_start_tls_s(): Connect error`. -/
theorem stderr_is_one_diagnostic_witness :
    main tlsFailureWorld = .ok tlsFailureRun ∧
    firstFailure tlsFailureWorld = some (.tlsNegotiation, -11) ∧
    (stderrOf tlsFailureRun.trace).length = 1 ∧
    tlsFailureRun.stderrText = "ldap_start_tls_s(): Connect error\n".toList :=
  ⟨rfl, rfl,
    ((stderr_is_one_diagnostic tlsFailureWorld tlsFailureRun rfl).1 .tlsNegotiation (-11) rfl).1,
    ((stderr_is_one_diagnostic tlsFailureWorld tlsFailureRun rfl).1 .tlsNegotiation (-11) rfl).2⟩

/-! ## Credentials and notices -/

/-- The `printf` calls of an execution in which every step succeeds. -/
theorem main_stdout_of_success (w : World) (r : Run) (h : main w = .ok r)
    (hall : AllSucceed w) :
    ∃ E, w.ldap_search_ext_s = .found E ∧
      stdoutOf r.trace =
        noticesOf w ++ [Out.connected] ++ [Out.totalResults (E.length : Int)] ++
          E.flatMap entryBlock := by
  obtain ⟨h1, h2, h3, h4, h5⟩ := hall
  obtain ⟨-, rfl⟩ := (main_ok_iff w r).1 h
  rcases session_cases w (bindUserOf w) (bindPasswordOf w) ((noticesOf w).map Event.stdout)
    with ⟨g1, e⟩ | ⟨g1, g2, e⟩ | ⟨g1, g2, g3, e⟩ | ⟨g1, g2, g3, g4, e⟩ |
      ⟨g1, g2, g3, g4, rc5, res, g5, e⟩ | ⟨g1, g2, g3, g4, E, g5, e⟩
  · exact absurd h1 g1
  · exact absurd h2 g2
  · exact absurd h3 g3
  · exact absurd h4 g4
  · rw [g5] at h5
    exact absurd h5 rc5.property
  · refine ⟨E, g5, ?_⟩
    rw [e]
    simp

/-- C7, as the code has it: in every successful execution the `printf` calls
are, in this order, the missing-credential notices (user first, then pw, one
for each absent variable), the connection notice, the count line, and the
entry blocks. -/
theorem stdout_parts_in_code_order (w : World) (r : Run) (h : main w = .ok r)
    (hexit : r.exit = 0) :
    ∃ E, w.ldap_search_ext_s = .found E ∧
      stdoutOf r.trace =
        noticesOf w ++ [Out.connected] ++ [Out.totalResults (E.length : Int)] ++
          E.flatMap entryBlock ∧
      stdoutOf r.trace = codeStdoutOrder w E := by
  have hall : AllSucceed w := by
    by_contra hne
    rw [main_exit w r h, if_neg hne] at hexit
    exact absurd hexit (by decide)
  obtain ⟨E, hE, hout⟩ := main_stdout_of_success w r h hall
  exact ⟨E, hE, hout, by rw [hout]; rfl⟩

/-- C7 at the anonymous two-entry world: both notices, then the connection
notice, then the count line, then two entry blocks. -/
theorem stdout_parts_in_code_order_witness :
    main anonymousWorld = .ok anonymousRun ∧ anonymousRun.exit = 0 ∧
    ∃ E, anonymousWorld.ldap_search_ext_s = .found E ∧
      stdoutOf anonymousRun.trace =
        noticesOf anonymousWorld ++ [Out.connected] ++ [Out.totalResults (E.length : Int)] ++
          E.flatMap entryBlock ∧
      stdoutOf anonymousRun.trace = codeStdoutOrder anonymousWorld E :=
  ⟨rfl, rfl, stdout_parts_in_code_order anonymousWorld anonymousRun rfl rfl⟩

/-- C7 as stated fails: in the successful execution of `noUserWorld` the
user-not-found notice is printed before the connection notice, so standard
output is not in the order connection notice, notices, count line, blocks. -/
theorem notice_precedes_connection_notice :
    main noUserWorld = .ok noUserRun ∧ noUserRun.exit = 0 ∧
    stdoutOf noUserRun.trace = [Out.userNotFound, Out.connected, Out.totalResults 0] ∧
    specStdoutOrder noUserWorld [] = [Out.connected, Out.userNotFound, Out.totalResults 0] ∧
    stdoutOf noUserRun.trace ≠ specStdoutOrder noUserWorld [] ∧
    noUserRun.stdoutText =
      ("(user not found... set to empty string)" ++
       "connected to LDAP server ldap://ldap.technikum-wien.at:389\n" ++
       "Total results: 0\n").toList := by
  refine ⟨rfl, rfl, rfl, rfl, by decide, by decide⟩

/-! ## Text of the result printer -/

theorem printfS_terminated (v : List Char) : printfS (v ++ [NUL]) = valueText v := by
  unfold printfS valueText
  induction v with
  | nil => simp
  | cons c v ih =>
    by_cases hc : c = NUL
    · simp [List.takeWhile_cons, hc]
    · simp [List.takeWhile_cons, hc, ih]

theorem printfD_natCast (n : Nat) : printfD (n : Int) = (Nat.repr n).toList := by
  have h : ¬ ((n : Int) < 0) := by omega
  simp [printfD, h, Nat.repr, List.asString]

theorem valueText_split (v : List Char) :
    ∃ rest, v = valueText v ++ rest ∧ NUL ∉ valueText v ∧
      (rest = [] ∨ ∃ tail, rest = NUL :: tail) := by
  unfold valueText
  induction v with
  | nil => exact ⟨[], by simp⟩
  | cons c v ih =>
    obtain ⟨rest, h1, h2, h3⟩ := ih
    by_cases hc : c = NUL
    · exact ⟨c :: v, by simp [List.takeWhile_cons, hc], by simp [List.takeWhile_cons, hc],
        Or.inr ⟨v, by rw [hc]⟩⟩
    · refine ⟨rest, ?_, ?_, h3⟩
      · simp only [List.takeWhile_cons, bne_iff_ne, ne_eq, hc, not_false_eq_true, if_true,
          decide_True, List.cons_append]
        rw [← h1]
      · simp only [List.takeWhile_cons, bne_iff_ne, ne_eq, hc, not_false_eq_true, if_true,
          decide_True, List.mem_cons, not_or]
        exact ⟨fun h => hc h.symm, h2⟩

theorem valueText_of_no_zero (v : List Char) (h : NUL ∉ v) : valueText v = v := by
  unfold valueText
  rw [List.takeWhile_eq_self_iff]
  intro c hc
  simp only [bne_iff_ne, ne_eq]
  rintro rfl
  exact h hc

theorem render_attrValue (a : CString) (v : List Char) :
    Out.render (.attrValue a v) = specValueLine a (valueText v) := by
  simp [Out.render, specValueLine, printfS_terminated]

theorem render_attributeLines (a : Attribute) :
    (attributeLines a).flatMap Out.render = specAttributeText a.cutAtZero := by
  unfold attributeLines specAttributeText Attribute.cutAtZero
  cases a.vals with
  | none => rfl
  | some vals =>
    simp only [Option.map_some', List.flatMap_map]
    congr 1
    funext v
    exact render_attrValue a.name v

theorem flatMap_flatMap {α β γ : Type} (l : List α) (f : α → List β) (g : β → List γ) :
    (l.flatMap f).flatMap g = l.flatMap fun x => (f x).flatMap g := by
  induction l with
  | nil => rfl
  | cons x l ih => simp [List.flatMap_cons, List.flatMap_append, ih]

theorem render_entryBlock (e : Entry) :
    (entryBlock e).flatMap Out.render = specEntryText e.cutAtZero := by
  unfold entryBlock specEntryText Entry.cutAtZero
  rw [List.flatMap_append, List.flatMap_cons, flatMap_flatMap]
  have h : (fun a => (attributeLines a).flatMap Out.render) =
      fun a => specAttributeText a.cutAtZero := by
    funext a
    exact render_attributeLines a
  rw [h]
  simp [Out.render, List.flatMap_cons, List.flatMap_map]

theorem render_search_output (E : List Entry) :
    (Out.totalResults (E.length : Int) :: E.flatMap entryBlock).flatMap Out.render =
      specSearchOutput (E.map Entry.cutAtZero) := by
  unfold specSearchOutput
  rw [List.flatMap_cons, flatMap_flatMap]
  have h : (fun e => (entryBlock e).flatMap Out.render) =
      fun e => specEntryText e.cutAtZero := by
    funext e
    exact render_entryBlock e
  rw [h]
  simp [Out.render, printfD_natCast, List.flatMap_map]

theorem cutAtZero_of_zeroFree (E : List Entry) (hE : ZeroFree E) :
    E.map Entry.cutAtZero = E := by
  have hentry : ∀ e ∈ E, e.cutAtZero = e := by
    intro e he
    have hattr : ∀ a ∈ e.attrs, a.cutAtZero = a := by
      intro a ha
      obtain ⟨name, vals⟩ := a
      cases vals with
      | none => rfl
      | some vals =>
        have hv : vals.map valueText = vals := by
          have : ∀ v ∈ vals, valueText v = v := fun v hv =>
            valueText_of_no_zero v (hE e he _ ha vals rfl v hv)
          calc vals.map valueText = vals.map id := List.map_congr_left this
            _ = vals := List.map_id vals
        simp [Attribute.cutAtZero, hv]
    obtain ⟨dn, ber, attrs⟩ := e
    have : attrs.map Attribute.cutAtZero = attrs := by
      calc attrs.map Attribute.cutAtZero = attrs.map id := List.map_congr_left hattr
        _ = attrs := List.map_id attrs
    simp [Entry.cutAtZero, this]
  calc E.map Entry.cutAtZero = E.map id := List.map_congr_left hentry
    _ = E := List.map_id E

/-- C3, as the code has it: in every execution in which all steps up to and
including the search succeed with the entries `E`, standard output from the
count line onwards is `Total results: n` with n the number of entries, then
for each entry in order its `DN: <dn>` line, one tab-indented
`<attribute>: <value>` line per value of each attribute in order (none for an
attribute whose value lookup yields nothing), and a blank line, where
`<value>` is the bytes of the value that precede its first zero byte; when no
value holds a zero byte every value is written in full. -/
theorem search_output_from_count_line (w : World) (r : Run) (E : List Entry)
    (h : main w = .ok r) (hall : AllSucceed w) (hE : w.ldap_search_ext_s = .found E) :
    (∃ before : List Out,
      (∀ n, Out.totalResults n ∉ before) ∧
      stdoutOf r.trace = before ++ Out.totalResults (E.length : Int) :: E.flatMap entryBlock ∧
      r.stdoutText =
        before.flatMap Out.render ++ specSearchOutput (E.map Entry.cutAtZero) ∧
      (ZeroFree E → r.stdoutText = before.flatMap Out.render ++ specSearchOutput E)) ∧
    (∀ v : List Char, ∃ rest,
      v = valueText v ++ rest ∧ NUL ∉ valueText v ∧ (rest = [] ∨ ∃ tail, rest = NUL :: tail)) := by
  refine ⟨?_, valueText_split⟩
  obtain ⟨E', hE', hout⟩ := main_stdout_of_success w r h hall
  rw [hE] at hE'
  cases hE'
  have htext : r.stdoutText =
      (noticesOf w ++ [Out.connected]).flatMap Out.render ++
        specSearchOutput (E.map Entry.cutAtZero) := by
    unfold Run.stdoutText
    rw [hout, ← render_search_output]
    simp [List.flatMap_append]
  refine ⟨noticesOf w ++ [Out.connected], ?_, ?_, htext, ?_⟩
  · intro n hmem
    rcases List.mem_append.1 hmem with hmem | hmem
    · rcases mem_noticesOf w _ hmem with h | h <;> cases h
    · simp at hmem
  · rw [hout]
    simp
  · intro hzero
    rw [htext, cutAtZero_of_zeroFree E hzero]

/-- C3 at the anonymous world whose search returns two entries with one `uid`
and one `cn` value each, none with a zero byte: `Total results: 2`, then two
`DN:` blocks of two attribute lines and a blank line each. -/
theorem search_output_from_count_line_witness :
    main anonymousWorld = .ok anonymousRun ∧
    ZeroFree [person "if19b001" "Ada", person "if19b002" "Bob"] ∧
    specSearchOutput [person "if19b001" "Ada", person "if19b002" "Bob"] =
      ("Total results: 2\n" ++
       "DN: uid=if19b001,ou=people,dc=technikum-wien,dc=at\n" ++
       "\tuid: if19b001\n" ++ "\tcn: Ada\n" ++ "\n" ++
       "DN: uid=if19b002,ou=people,dc=technikum-wien,dc=at\n" ++
       "\tuid: if19b002\n" ++ "\tcn: Bob\n" ++ "\n").toList ∧
    ∃ before : List Out,
      (∀ n, Out.totalResults n ∉ before) ∧
      stdoutOf anonymousRun.trace =
        before ++ Out.totalResults (2 : Nat) ::
          [person "if19b001" "Ada", person "if19b002" "Bob"].flatMap entryBlock ∧
      anonymousRun.stdoutText =
        before.flatMap Out.render ++
          specSearchOutput
            ([person "if19b001" "Ada", person "if19b002" "Bob"].map Entry.cutAtZero) ∧
      (ZeroFree [person "if19b001" "Ada", person "if19b002" "Bob"] →
        anonymousRun.stdoutText =
          before.flatMap Out.render ++
            specSearchOutput [person "if19b001" "Ada", person "if19b002" "Bob"]) :=
  ⟨rfl, by simp [ZeroFree, person, NUL], rfl,
    (search_output_from_count_line anonymousWorld anonymousRun
      [person "if19b001" "Ada", person "if19b002" "Bob"] rfl (by decide) rfl).1⟩

/-- C3 as stated fails: with a `cn` value of the four bytes `J o 0 e` the
printer writes the line `\tcn: Jo\n`, so standard output does not end with
the text in which every value is written in full. -/
theorem zero_byte_value_is_not_written_in_full :
    main zeroByteWorld = .ok zeroByteRun ∧ AllSucceed zeroByteWorld ∧
    zeroByteWorld.ldap_search_ext_s = .found [zeroByteEntry] ∧
    zeroByteRun.stdoutText =
      ("connected to LDAP server ldap://ldap.technikum-wien.at:389\n" ++
       "Total results: 1\n" ++ "DN: cn=Jo\n" ++ "\tcn: Jo\n" ++ "\n").toList ∧
    specSearchOutput [zeroByteEntry] =
      ("Total results: 1\n" ++ "DN: cn=Jo\n" ++ "\tcn: ").toList ++ ['J', 'o', NUL, 'e'] ++
        "\n\n".toList ∧
    ¬ (specSearchOutput [zeroByteEntry] <:+ zeroByteRun.stdoutText) ∧
    ¬ ∃ before : List Out,
        zeroByteRun.stdoutText =
          before.flatMap Out.render ++ specSearchOutput [zeroByteEntry] := by
  have hsuffix : ¬ (specSearchOutput [zeroByteEntry] <:+ zeroByteRun.stdoutText) := by decide
  refine ⟨rfl, by decide, rfl, by decide, by decide, hsuffix, ?_⟩
  rintro ⟨before, hbefore⟩
  exact hsuffix ⟨before.flatMap Out.render, hbefore.symm⟩

/-- The count line of an empty result is `Total results: 0` and nothing
follows it. -/
theorem specSearchOutput_nil : specSearchOutput [] = "Total results: 0\n".toList := by
  decide

/-! ## One value line -/

/-- C8, as the code has it: for an attribute name `a` and a value `v`, the
result printer writes a tab, `a`, `: `, the bytes of `v` that come before its
first zero byte, and a newline; that is all of `v`, unaltered, when `v` holds
no zero byte. -/
theorem value_line_stops_at_zero_byte (a : CString) (v : List Char) :
    ∃ shown rest,
      v = shown ++ rest ∧ NUL ∉ shown ∧ (rest = [] ∨ ∃ tail, rest = NUL :: tail) ∧
      printedValues a [v] = "\t".toList ++ a ++ ": ".toList ++ shown ++ "\n".toList ∧
      (NUL ∉ v → shown = v) := by
  obtain ⟨rest, h1, h2, h3⟩ := valueText_split v
  refine ⟨valueText v, rest, h1, h2, h3, ?_, valueText_of_no_zero v⟩
  simp [printedValues, render_attrValue, specValueLine]

/-- C8 at a `cn` value without a zero byte: the line holds the value in
full. -/
theorem value_line_stops_at_zero_byte_witness :
    NUL ∉ "Ada".toList ∧ printedValues "cn".toList ["Ada".toList] = "\tcn: Ada\n".toList ∧
    ∃ shown rest,
      "Ada".toList = shown ++ rest ∧ NUL ∉ shown ∧ (rest = [] ∨ ∃ tail, rest = NUL :: tail) ∧
      printedValues "cn".toList ["Ada".toList] =
        "\t".toList ++ "cn".toList ++ ": ".toList ++ shown ++ "\n".toList ∧
      (NUL ∉ "Ada".toList → shown = "Ada".toList) :=
  ⟨by decide, by decide, value_line_stops_at_zero_byte "cn".toList "Ada".toList⟩

/-- C8 as stated fails: for the five-byte value `a b 0 c d` the printer
writes `\tcn: ab\n`, not the five bytes in full. -/
theorem value_with_zero_byte_is_cut :
    binaryValue.length = 5 ∧
    printedValues "cn".toList [binaryValue] = "\tcn: ab\n".toList ∧
    printedValues "cn".toList [binaryValue] ≠
      "\t".toList ++ "cn".toList ++ ": ".toList ++ binaryValue ++ "\n".toList := by
  refine ⟨rfl, by decide, by decide⟩

/-! ## Resources -/

theorem trackAll_append (live : List Resource) (s t : List Event) :
    trackAll live (s ++ t) = (trackAll live s).bind fun l => trackAll l t := by
  induction s generalizing live with
  | nil => rfl
  | cons e s ih =>
    simp only [List.cons_append, trackAll]
    cases track live e with
    | none => rfl
    | some l => simpa using ih l

theorem trackAll_printValues (live : List Resource) (attr : CString) (vals : List (List Char)) :
    trackAll live (printValues attr vals) = some live := by
  rw [printValues_eq]
  induction vals with
  | nil => rfl
  | cons v vals ih => simpa [trackAll, track] using ih

/-- The attribute loop gives back every attribute name and value array it is
handed. -/
theorem trackAll_attributeLoop (live : List Resource) (e a : Nat) (attrs : List Attribute) :
    trackAll live (attributeLoop e a attrs) = some live := by
  induction attrs generalizing a with
  | nil => rfl
  | cons attr rest ih =>
    cases hv : attr.vals with
    | none =>
      simp [attributeLoop, hv, trackAll, track, ih]
    | some vals =>
      simp [attributeLoop, hv, trackAll, track, trackAll_append, trackAll_printValues, ih]

/-- The entry loop gives back every cursor, attribute name and value array;
what stays live are the strings of `ldap_get_dn`. -/
theorem trackAll_entryLoop (live : List Resource) (e : Nat) (E : List Entry) :
    ∃ kept, trackAll live (entryLoop e E) = some (kept ++ live) ∧
      ∀ x ∈ kept, ∃ i, x = Resource.dnString i := by
  induction E generalizing live e with
  | nil => exact ⟨[], rfl, by simp⟩
  | cons entry rest ih =>
    obtain ⟨kept, hk, hkept⟩ := ih (Resource.dnString e :: live) (e + 1)
    refine ⟨kept ++ [Resource.dnString e], ?_, ?_⟩
    · cases hb : entry.ber <;>
        simp [entryLoop, hb, trackAll, track, trackAll_append, trackAll_attributeLoop, hk]
    · intro x hx
      rcases List.mem_append.1 hx with hx | hx
      · exact hkept x hx
      · exact ⟨e, by simpa using hx⟩

/-- Resource discipline of `main`: no execution releases a resource that is
not live, so nothing is released without having been acquired and nothing is
released twice; what is still live at the end are the strings of
`ldap_get_dn` and, when the search failed after storing a result, that
result. -/
theorem releases_are_allowed (w : World) (r : Run) (h : main w = .ok r) :
    ∃ kept, trackAll [] r.trace = some kept ∧
      ∀ x ∈ kept, (∃ i, x = Resource.dnString i) ∨
        (x = Resource.resultSet ∧ ∃ rc E, w.ldap_search_ext_s = .failed rc (some E)) := by
  obtain ⟨-, rfl⟩ := (main_ok_iff w r).1 h
  have hn : trackAll [] ((noticesOf w).map Event.stdout) = some [] := by
    unfold noticesOf
    cases w.ldapuser <;> cases w.ldappw <;> rfl
  rcases session_cases w (bindUserOf w) (bindPasswordOf w) ((noticesOf w).map Event.stdout)
    with ⟨h1, e⟩ | ⟨h1, h2, e⟩ | ⟨h1, h2, h3, e⟩ | ⟨h1, h2, h3, h4, e⟩ |
      ⟨h1, h2, h3, h4, rc, res, h5, e⟩ | ⟨h1, h2, h3, h4, E, h5, e⟩
  · exact ⟨[], by rw [e]; simp [trackAll_append, hn, trackAll, track], by simp⟩
  · exact ⟨[], by rw [e]; simp [trackAll_append, hn, trackAll, track], by simp⟩
  · exact ⟨[], by rw [e]; simp [trackAll_append, hn, trackAll, track], by simp⟩
  · exact ⟨[], by rw [e]; simp [trackAll_append, hn, trackAll, track], by simp⟩
  · cases res with
    | none => exact ⟨[], by rw [e]; simp [trackAll_append, hn, trackAll, track], by simp⟩
    | some E =>
      refine ⟨[Resource.resultSet], by rw [e]; simp [trackAll_append, hn, trackAll, track], ?_⟩
      intro x hx
      exact Or.inr ⟨by simpa using hx, rc, E, h5⟩
  · obtain ⟨kept, hk, hkept⟩ :=
      trackAll_entryLoop [Resource.resultSet, Resource.connection] 0 E
    have hr : Resource.resultSet ∉ kept := fun hm => by
      obtain ⟨i, hi⟩ := hkept _ hm
      cases hi
    have hc : Resource.connection ∉ kept := fun hm => by
      obtain ⟨i, hi⟩ := hkept _ hm
      cases hi
    refine ⟨kept, ?_, fun x hx => Or.inl (hkept x hx)⟩
    rw [e]
    simp [trackAll_append, hn, trackAll, track, hk, List.erase_append_right, hr, hc]

/-- C6, at a search that ends with `LDAP_SIZELIMIT_EXCEEDED` after storing
the entries received so far: the result set is acquired and the execution
returns without releasing it; the connection is released once. -/
theorem failed_search_result_is_not_released :
    main sizeLimitWorld = .ok sizeLimitRun ∧
    sizeLimitRun.trace.count (Event.acquire .resultSet) = 1 ∧
    sizeLimitRun.trace.count (Event.release .resultSet) = 0 ∧
    sizeLimitRun.trace.count (Event.acquire .connection) = 1 ∧
    sizeLimitRun.trace.count (Event.release .connection) = 1 ∧
    trackAll [] sizeLimitRun.trace = some [Resource.resultSet] := by
  refine ⟨rfl, by decide, by decide, by decide, by decide, by decide⟩

/-! ## The bind name -/

/-- For an identity value of at most 89 bytes, every bind is handed the
template with the value substituted unchanged. -/
theorem bind_name_is_template (w : World) (r : Run) (U : CString)
    (hU : w.ldapuser = some U) (h : main w = .ok r) :
    U.length ≤ 89 ∧
    ∀ dn cred, Event.op (.bind dn cred) ∈ r.trace →
      dn = "uid=".toList ++ U ++ ",ou=people,dc=technikum-wien,dc=at".toList := by
  obtain ⟨hin, rfl⟩ := (main_ok_iff w r).1 h
  refine ⟨by simpa [InBounds, hU] using hin, ?_⟩
  have hdn : bindUserOf w =
      "uid=".toList ++ U ++ ",ou=people,dc=technikum-wien,dc=at".toList := by
    simp [bindUserOf, hU, formatBindUser]
  have hn : ∀ dn cred, Event.op (.bind dn cred) ∉ (noticesOf w).map Event.stdout := by
    intro dn cred hmem
    obtain ⟨o, -, ho⟩ := List.mem_map.1 hmem
    cases ho
  have hloop : ∀ (E : List Entry) dn cred, Event.op (.bind dn cred) ∉ entryLoop 0 E := by
    intro E dn cred hmem
    have : Op.bind dn cred ∈ opsOf (entryLoop 0 E) := by
      unfold opsOf
      exact List.mem_filterMap.2 ⟨_, hmem, rfl⟩
    simp at this
  intro dn cred hmem
  rw [← hdn]
  rcases session_cases w (bindUserOf w) (bindPasswordOf w) ((noticesOf w).map Event.stdout)
    with ⟨h1, e⟩ | ⟨h1, h2, e⟩ | ⟨h1, h2, h3, e⟩ | ⟨h1, h2, h3, h4, e⟩ |
      ⟨h1, h2, h3, h4, rc, res, h5, e⟩ | ⟨h1, h2, h3, h4, E, h5, e⟩
  all_goals rw [e] at hmem
  · simp [hn] at hmem
  · simp [hn] at hmem
  · simp [hn] at hmem
  · simp [hn] at hmem
    exact hmem.1
  · cases res <;> simp [hn] at hmem <;> exact hmem.1
  · simp [hn, hloop] at hmem
    exact hmem.1

end MyLdap
